import Mathlib

/-!
Verification development for the FMP-Vision enrichment pipeline
(`fmp-openai.py`).

The pipeline downloads a bulk instrument list, filters it to stock/ETF
candidates on AMEX/NASDAQ, concurrently fetches per-symbol profile data and
merges six profile fields into a symbol-keyed record map, rewrites each
record's description through one of two HTTP backends (openai or coze),
and finally writes all records to a CSV file.

The embedding below models JSON values, Python dictionaries as
insertion-ordered association lists, and each fallible Python operation as
an `Except PyErr` computation (an uncaught Python exception is `.error`).
Network I/O is modelled by oracles: a function from symbol (resp. request
text) to the `HttpOutcome` of the corresponding HTTP call, and the
nondeterministic completion order of the concurrent profile fetches is an
explicit list of symbols.
-/

/-- A JSON value, as produced by parsing an HTTP response body. -/
inductive Json where
  | null : Json
  | bool : Bool → Json
  | num : Int → Json
  | str : String → Json
  | arr : List Json → Json
  | obj : List (String × Json) → Json

/-- A Python exception kind, as raised by the operations the pipeline uses. -/
inductive PyErr where
  | keyError : String → PyErr
  | indexError : PyErr
  | typeError : PyErr
  | valueError : String → PyErr
deriving DecidableEq

/-- First-match lookup in an association list with string keys; this is the
semantics of Python `d[k]` on a dict (keys are unique in every dict the
pipeline builds, so first-match equals the dict lookup). -/
def lookupKey {α : Type} : List (String × α) → String → Option α
  | [], _ => none
  | p :: rest, k => if p.1 = k then some p.2 else lookupKey rest k

/-- Python `j[k]` for a string subscript: a key lookup on a JSON object,
`KeyError` when the key is absent, `TypeError` on a non-object. -/
def Json.item : Json → String → Except PyErr Json
  | .obj fs, k =>
    match lookupKey fs k with
    | some v => .ok v
    | none => .error (.keyError k)
  | _, _ => .error .typeError

/-- Python `j[i]` for an integer subscript: array indexing, `IndexError`
when out of range, `TypeError` on a non-array. -/
def Json.itemIdx : Json → Nat → Except PyErr Json
  | .arr xs, i =>
    match xs.get? i with
    | some v => .ok v
    | none => .error .indexError
  | _, _ => .error .typeError

/-- Extract the string payload of a JSON value; a string method or string
concatenation applied to a non-string raises (modelled as `TypeError`). -/
def Json.asStr : Json → Except PyErr String
  | .str s => .ok s
  | _ => .error .typeError

/-- Total variants of the accessors, used to model field access inside a
Python `try` block (where every failure is caught and collapsed to `None`). -/
def Json.getField : Json → String → Option Json
  | .obj fs, k => lookupKey fs k
  | _, _ => none

/-- Total array indexing, for access inside a `try` block. -/
def Json.getIdx : Json → Nat → Option Json
  | .arr xs, i => xs.get? i
  | _, _ => none

/-- Total string extraction, for access inside a `try` block. -/
def Json.getStr : Json → Option String
  | .str s => some s
  | _ => none

/-- Python `s.upper()` (over the characters of the string). -/
def strToUpper (s : String) : String := ⟨s.data.map Char.toUpper⟩

/-- Python `s.lower()` (over the characters of the string). -/
def strToLower (s : String) : String := ⟨s.data.map Char.toLower⟩

/-- Python `s.strip()`: remove leading and trailing whitespace. -/
def strTrim (s : String) : String :=
  ⟨((s.data.dropWhile Char.isWhitespace).reverse.dropWhile Char.isWhitespace).reverse⟩

/-- An instrument record: a Python dict in insertion order, field name to
JSON value. -/
abbrev Rec := List (String × Json)

/-- The field names of a record, in insertion order (`dict.keys()`). -/
def recKeys (r : Rec) : List String := r.map Prod.fst

/-- Python `item[k]` on a record dict. -/
def recGet (r : Rec) (k : String) : Except PyErr Json :=
  match lookupKey r k with
  | some v => .ok v
  | none => .error (.keyError k)

/-- Python `d[k] = v`: replace the value in place when the key is present
(dict assignment keeps the key's original position), append otherwise. -/
def setField (r : Rec) (k : String) (v : Json) : Rec :=
  if (lookupKey r k).isSome then
    r.map (fun p => if p.1 = k then (k, v) else p)
  else
    r ++ [(k, v)]

/-- Python `item.update(upds)`: apply `d[k] = v` for each pair in order. -/
def dictUpdate (r : Rec) (upds : List (String × Json)) : Rec :=
  upds.foldl (fun acc p => setField acc p.1 p.2) r

/-- The outcome of one HTTP call, as observed by the caller: either a
transport-level failure (connection error, timeout) or a response with a
status code and a parsed JSON body (`none` when `response.json()` itself
raises on a malformed body). -/
inductive HttpOutcome where
  | transportError : HttpOutcome
  | response : Nat → Option Json → HttpOutcome

/-- Embedding of `send_request` (fmp-openai.py lines 16-50): an unsupported
method raises `ValueError` before the `try` block; inside the `try`, a 200
response yields its parsed body, any non-200 status yields `None`, and any
exception (transport failure or malformed body) is caught and yields
`None`. -/
def send_request (method : String) (outcome : HttpOutcome) : Except PyErr (Option Json) :=
  if strToUpper method = "GET" ∨ strToUpper method = "POST" then
    .ok (match outcome with
         | .transportError => none
         | .response status body => if status = 200 then body else none)
  else
    .error (.valueError ("Unsupported method: " ++ method))

/-! ## Profile enrichment (`get_profile_data`, `update_with_profile`) -/

/-- The symbol-keyed record map (`data_map` in the source): a Python dict
from symbol to instrument record, in insertion order. -/
abbrev DataMap := List (String × Rec)

/-- The keys of the data map, in insertion order. -/
def mapKeys (m : DataMap) : List String := m.map Prod.fst

/-- Python dict value assignment to an existing key: the value is replaced
in place, the key keeps its original position. -/
def setValue (m : DataMap) (k : String) (r : Rec) : DataMap :=
  m.map (fun p => if p.1 = k then (k, r) else p)

/-- One step of the dict comprehension building `data_map`: insert or
overwrite; an overwritten key keeps its first-insertion position
(last write wins on duplicates). -/
def mapInsert (m : DataMap) (k : String) (r : Rec) : DataMap :=
  if (lookupKey m k).isSome then setValue m k r else m ++ [(k, r)]

/-- Embedding of the dict comprehension at line 101 of fmp-openai.py:
`data_map = (item.symbol mapsto item, for item in filtered_data)`.
A missing `symbol` field raises `KeyError`. Symbols are modelled as
strings (every symbol the upstream API serves is a JSON string). -/
def buildMap (filtered_data : List Rec) : Except PyErr DataMap :=
  filtered_data.foldlM
    (fun m item => do
      let sJ ← recGet item "symbol"
      let s ← sJ.asStr
      pure (mapInsert m s item))
    []

/-- Embedding of `get_profile_data` (lines 67-86): send a GET for the
symbol's profile URL and return the parsed body together with the symbol.
The oracle `fetch` gives the HTTP outcome of the GET to
`api_url ++ symbol ++ "?apikey=" ++ api_key`. -/
def get_profile_data (fetch : String → HttpOutcome) (symbol : String) :
    Except PyErr (Option Json × String) := do
  let profile_data ← send_request "GET" (fetch symbol)
  pure (profile_data, symbol)

/-- The six-field dict literal built at lines 116-123 of fmp-openai.py from
`profile_data[0]`: each access can raise (`IndexError` on an empty array,
`KeyError` on a missing field), and the accesses are evaluated left to
right before any update happens. -/
def extractSix (profile_data : Json) : Except PyErr (List (String × Json)) := do
  let currency ← (← profile_data.itemIdx 0).item "currency"
  let industry ← (← profile_data.itemIdx 0).item "industry"
  let sector ← (← profile_data.itemIdx 0).item "sector"
  let country ← (← profile_data.itemIdx 0).item "country"
  let image ← (← profile_data.itemIdx 0).item "image"
  let description ← (← profile_data.itemIdx 0).item "description"
  pure [("currency", currency), ("industry", industry), ("sector", sector),
        ("country", country), ("image", image), ("description", description)]

/-- Embedding of the body of the `as_completed` loop (lines 113-123): a
`None` profile result is skipped; otherwise the record for the symbol is
looked up in the map and the six profile fields are written into it.
Any exception raised here is uncaught and aborts `update_with_profile`. -/
def processCompletion (m : DataMap) (symbol : String) (profile_data : Option Json) :
    Except PyErr DataMap :=
  match profile_data with
  | none => .ok m
  | some pd => do
      let item ← (match lookupKey m symbol with
                  | some it => Except.ok it
                  | none => Except.error (.keyError symbol))
      let upds ← extractSix pd
      pure (setValue m symbol (dictUpdate item upds))

/-- The `asyncio.as_completed` loop (lines 109-123): the completions of the
per-symbol fetch tasks are consumed in the (nondeterministic) order given
by `order`, each one merged into the map by `processCompletion`. -/
def enrichLoop (fetch : String → HttpOutcome) : DataMap → List String → Except PyErr DataMap
  | m, [] => .ok m
  | m, symbol :: rest => do
      let ps ← get_profile_data fetch symbol
      let m2 ← processCompletion m ps.2 ps.1
      enrichLoop fetch m2 rest

/-- Embedding of `update_with_profile` (lines 88-126): build the symbol
map, fetch every symbol's profile concurrently (tasks are created for
`data_map.keys()`; `order` is the completion order, a permutation of those
keys), merge each completion, and return `list(data_map.values())`. -/
def update_with_profile (filtered_data : List Rec) (fetch : String → HttpOutcome)
    (order : List String) : Except PyErr (List Rec) := do
  let dm ← buildMap filtered_data
  let dm2 ← enrichLoop fetch dm order
  pure (dm2.map Prod.snd)

/-- The JSON value that a profile GET delivers to the merge loop: the body
on a well-formed 200 response, `None` on any failure (this is
`send_request "GET"` specialised; the GET branch never raises). -/
def fetchJson (fetch : String → HttpOutcome) (symbol : String) : Option Json :=
  match fetch symbol with
  | .transportError => none
  | .response status body => if status = 200 then body else none

/-! ## Description rewriting (`rewrite_with_coze`, `rewrite_with_openai`) -/

/-- An outbound HTTP request value: method, URL, headers and JSON body. -/
structure Request where
  method : String
  url : String
  headers : List (String × String)
  body : Json

/-- The request built by `rewrite_with_openai` (lines 190-202): a POST to
the completions endpoint with a bearer token from the API key, a prompt
prefixing the 50-word rewrite instruction to the text, and a 50-token
budget. -/
def openaiRequest (api_key text : String) : Request :=
  { method := "POST"
    url := "https://api.openai.com/v1/engines/davinci-codex/completions"
    headers := [("Authorization", "Bearer " ++ api_key),
                ("Content-Type", "application/json")]
    body := .obj [("prompt",
                   .str ("Rewrite the following text in a maximum of 50 words:\n" ++ text)),
                  ("max_tokens", .num 50)] }

/-- The request built by `rewrite_with_coze` (lines 144-159): a POST to the
chat endpoint with a bearer token from the access token and a fixed
conversation id, the bot id, the user id and the text as the query. -/
def cozeRequest (access_token user_id bot_id text : String) : Request :=
  { method := "POST"
    url := "https://api.coze.com/open_api/v2/chat"
    headers := [("Authorization", "Bearer " ++ access_token),
                ("Content-Type", "application/json")]
    body := .obj [("conversation_id", .str "123"), ("bot_id", .str bot_id),
                  ("user", .str user_id), ("query", .str text),
                  ("stream", .bool false)] }

/-- The `try` block of `rewrite_with_openai` (lines 207-217): on a `None`
response return `None`; otherwise take `choices[0].text`, strip it and
return it; any exception (missing field, wrong shape, non-string text) is
caught and yields `None`. -/
def extractOpenAIText (response_data : Option Json) : Option Json := do
  let j ← response_data
  let choices ← j.getField "choices"
  let c0 ← choices.getIdx 0
  let t ← c0.getField "text"
  let s ← t.getStr
  pure (.str (strTrim s))

/-- The `try` block of `rewrite_with_coze` (lines 164-174): on a `None`
response return `None`; otherwise return `messages[0].content` unchanged
(no stripping); exceptions are caught and yield `None`; a JSON `null`
content is Python `None` and is therefore indistinguishable from failure
for the caller. -/
def extractCozeText (response_data : Option Json) : Option Json := do
  let j ← response_data
  let messages ← j.getField "messages"
  let m0 ← messages.getIdx 0
  let content ← m0.getField "content"
  match content with
  | .null => none
  | v => pure v

/-- Embedding of `rewrite_with_openai` (lines 177-217): build the request,
send it (the oracle `outcome` is the HTTP outcome of that POST), and
extract the rewritten text. Returns the request together with the result
so that theorems can speak about the request that was issued. -/
def rewrite_with_openai (api_key text : String) (outcome : HttpOutcome) :
    Except PyErr (Request × Option Json) := do
  let req := openaiRequest api_key text
  let response_data ← send_request req.method outcome
  pure (req, extractOpenAIText response_data)

/-- Embedding of `rewrite_with_coze` (lines 129-174), analogous to
`rewrite_with_openai`. -/
def rewrite_with_coze (access_token user_id bot_id text : String) (outcome : HttpOutcome) :
    Except PyErr (Request × Option Json) := do
  let req := cozeRequest access_token user_id bot_id text
  let response_data ← send_request req.method outcome
  pure (req, extractCozeText response_data)

/-! ## The orchestrator (`main`) -/

/-- An HTTP call issued by the pipeline, for tracing which network calls a
run performs: the bulk list download, a per-symbol profile fetch, or a
rewrite call with its full request. -/
inductive CallEvent where
  | bulkList : CallEvent
  | profileFetch : String → CallEvent
  | rewriteCall : Request → CallEvent

/-- The instruction appended (not prefixed) to each description by `main`
at lines 241-242. -/
def mainPrompt : String := "Can you rewrite the following text with a maximum of 50 words?"

/-- Whether a JSON value equals a given Python string literal (Python `==`
between an arbitrary value and a string: `False` on non-strings). -/
def jsonEqStr (j : Json) (s : String) : Bool :=
  match j with
  | .str t => t = s
  | _ => false

/-- Embedding of the list comprehension at lines 228-229: keep the items
whose `type` lowercases to stock or etf and whose `exchangeShortName` is
AMEX or NASDAQ. The `type` access and the `lower()` call raise on a
missing or non-string field; `exchangeShortName` is only accessed (and can
only raise) when the type test already passed. -/
def filterCandidates : List Rec → Except PyErr (List Rec)
  | [] => .ok []
  | item :: rest => do
      let tJ ← recGet item "type"
      let t ← tJ.asStr
      let keep ←
        if strToLower t = "stock" ∨ strToLower t = "etf" then do
          let eJ ← recGet item "exchangeShortName"
          pure (jsonEqStr eJ "AMEX" || jsonEqStr eJ "NASDAQ")
        else
          pure false
      let rest2 ← filterCandidates rest
      pure (if keep then item :: rest2 else rest2)

/-- The body of the rewrite loop in `main` (lines 239-254) for one record:
read `item.description` (KeyError when enrichment never added it),
append the instruction, dispatch on `rewrite_api` (an unrecognised value
raises `ValueError` here, after the profile phase), and attach the result
as `description-new` when it is not `None`. Returns the rewrite calls
issued for this record together with the updated record. -/
def rewriteItem (rewrite_api api_key access_token user_id bot_id : String)
    (rw : String → HttpOutcome) (item : Rec) :
    Except PyErr (List CallEvent × Rec) := do
  let dJ ← recGet item "description"
  let description ← dJ.asStr
  let full_text := description ++ mainPrompt
  let callResult ←
    if strToLower rewrite_api = "openai" then
      rewrite_with_openai api_key full_text (rw full_text)
    else if strToLower rewrite_api = "coze" then
      rewrite_with_coze access_token user_id bot_id full_text (rw full_text)
    else
      .error (.valueError "Invalid rewrite_api value. It should be either openai or coze.")
  match callResult.2 with
  | some v => pure ([.rewriteCall callResult.1], dictUpdate item [("description-new", v)])
  | none => pure ([.rewriteCall callResult.1], item)

/-- The rewrite loop over all records. On an uncaught exception the events
issued before the failing record are kept (a record fails before issuing
its own call, so it contributes no event). -/
def rewriteLoop (rewrite_api api_key access_token user_id bot_id : String)
    (rw : String → HttpOutcome) : List Rec → List CallEvent × Except PyErr (List Rec)
  | [] => ([], .ok [])
  | item :: rest =>
      match rewriteItem rewrite_api api_key access_token user_id bot_id rw item with
      | .error e => ([], .error e)
      | .ok (ev, item2) =>
          match rewriteLoop rewrite_api api_key access_token user_id bot_id rw rest with
          | (evs, .error e) => (ev ++ evs, .error e)
          | (evs, .ok rest2) => (ev ++ evs, .ok (item2 :: rest2))

/-- Embedding of the CSV emission (lines 256-262): the column names are the
keys of `updated_data[0]` (IndexError on an empty list, so an empty batch
produces no file at all, not even a header); each row is the record's
values in column order, `None` for a missing column; `csv.DictWriter`
raises `ValueError` when a record carries a key outside the header. -/
def writeCsv (updated_data : List Rec) : Except PyErr (List String × List (List (Option Json))) := do
  let first ← (match updated_data.head? with
               | some f => Except.ok f
               | none => Except.error PyErr.indexError)
  let fieldnames := recKeys first
  let rows ← updated_data.mapM (fun row =>
    if row.all (fun p => fieldnames.contains p.1) then
      Except.ok (fieldnames.map (fun k => lookupKey row k))
    else
      Except.error (PyErr.valueError "dict contains fields not in fieldnames"))
  pure (fieldnames, rows)

/-- Embedding of `main` (lines 220-262). Parameters model the external
world: `data` is the parsed content of the input list file, `fetch` the
per-symbol outcome of the profile GETs, `order` the completion order of
the concurrent fetch tasks (a permutation of the map keys), and `rw` the
per-text outcome of the rewrite POSTs. Returns the trace of HTTP calls
issued together with either the emitted CSV (header and rows) or the
uncaught exception that aborted the run. -/
def mainModel (rewrite_api api_key access_token user_id bot_id : String)
    (data : List Rec) (fetch : String → HttpOutcome) (order : List String)
    (rw : String → HttpOutcome) :
    List CallEvent × Except PyErr (List String × List (List (Option Json))) :=
  let ev0 : List CallEvent := [.bulkList]
  match filterCandidates data with
  | .error e => (ev0, .error e)
  | .ok filtered_data =>
    match buildMap filtered_data with
    | .error e => (ev0, .error e)
    | .ok dm =>
      let evP := (mapKeys dm).map CallEvent.profileFetch
      match enrichLoop fetch dm order with
      | .error e => (ev0 ++ evP, .error e)
      | .ok dm2 =>
        let updated_data := dm2.map Prod.snd
        match rewriteLoop rewrite_api api_key access_token user_id bot_id rw updated_data with
        | (evR, .error e) => (ev0 ++ evP ++ evR, .error e)
        | (evR, .ok updated2) =>
          match writeCsv updated2 with
          | .error e => (ev0 ++ evP ++ evR, .error e)
          | .ok out => (ev0 ++ evP ++ evR, .ok out)

/-! ## Concrete inputs shared by several witnesses -/

/-- A minimal candidate instrument record. -/
def itemA : Rec :=
  [("symbol", Json.str "A"), ("type", Json.str "stock"), ("exchangeShortName", Json.str "AMEX")]

/-- A well-formed profile response body carrying all six fields. -/
def profileA : Json :=
  Json.arr [Json.obj [("currency", Json.str "USD"), ("industry", Json.str "Tech"),
                      ("sector", Json.str "IT"), ("country", Json.str "US"),
                      ("image", Json.str "img"),
                      ("description", Json.str "Acme Corp makes widgets.")]]

/-- The six update pairs that `extractSix` reads out of `profileA`. -/
def profileAUpds : List (String × Json) :=
  [("currency", Json.str "USD"), ("industry", Json.str "Tech"), ("sector", Json.str "IT"),
   ("country", Json.str "US"), ("image", Json.str "img"),
   ("description", Json.str "Acme Corp makes widgets.")]

/-- An enriched record carrying a description, ready for the rewrite loop. -/
def acmeRecord : Rec :=
  [("symbol", Json.str "ACME"), ("description", Json.str "Acme Corp makes widgets.")]

/-- A rewrite response whose `choices[0].text` carries surrounding blanks. -/
def acmeRewriteOutcome : HttpOutcome :=
  .response 200 (some (.obj [("choices",
    .arr [.obj [("text", Json.str "  Acme makes widgets.  ")]])]))

/-- A second candidate instrument record, for multi-symbol runs. -/
def itemB : Rec :=
  [("symbol", Json.str "B"), ("type", Json.str "etf"), ("exchangeShortName", Json.str "NASDAQ")]

/-- A fetch oracle where the profile GET succeeds for symbol A and fails at
transport level for every other symbol. -/
def fetchAB : String → HttpOutcome :=
  fun s => if s = "A" then .response 200 (some profileA) else .transportError

/-! ## Specification-level predicates used by the theorems -/

/-- The filter condition of lines 228-229 as a pure boolean predicate on
records that carry the fields it inspects. -/
def candPred (item : Rec) : Bool :=
  match lookupKey item "type" with
  | some (.str t) =>
      if strToLower t = "stock" ∨ strToLower t = "etf" then
        match lookupKey item "exchangeShortName" with
        | some e => jsonEqStr e "AMEX" || jsonEqStr e "NASDAQ"
        | none => false
      else false
  | _ => false

/-- Every entry of the symbol map holds a record whose `symbol` field is
the JSON string the entry is keyed by. -/
def SymInv (m : DataMap) : Prop :=
  ∀ p ∈ m, lookupKey p.2 "symbol" = some (Json.str p.1)

/-- A profile-fetch result is either a failure or a body from which all
six profile fields can be read: the "succeed or fail" domain of the
claims about the enrichment phase (a malformed 200 body is neither). -/
def profileOk (o : Option Json) : Prop :=
  ∀ j, o = some j → ∃ upds, extractSix j = .ok upds

/-- The per-record effect of one fetch completion, as a total function:
a failure leaves the record unchanged, a body whose six fields extract
writes them, and (vacuously, under `profileOk`) a malformed body leaves
the record unchanged. -/
def applyMergeT (r : Rec) (o : Option Json) : Rec :=
  match o with
  | none => r
  | some pd =>
    match extractSix pd with
    | .ok upds => dictUpdate r upds
    | .error _ => r

/-! ## Claim theorems -/

/-- C6: for method GET or POST, `send_request` returns the parsed body on
HTTP status 200, returns a failure value (`None`) on any non-200 status
without raising, and catches any transport-level error (connection
failure, timeout, malformed body) returning a failure value instead of
propagating a fatal error. -/
theorem c6_send_request_result (method : String)
    (hm : strToUpper method = "GET" ∨ strToUpper method = "POST")
    (j : Json) (status : Nat) (hs : status ≠ 200) (body : Option Json) :
    send_request method (.response 200 (some j)) = .ok (some j) ∧
    send_request method (.response status body) = .ok none ∧
    send_request method .transportError = .ok none := by
  refine ⟨?_, ?_, ?_⟩
  · unfold send_request
    rw [if_pos hm]
    rfl
  · unfold send_request
    rw [if_pos hm]
    simp [hs]
  · unfold send_request
    rw [if_pos hm]

/-- Witness for C6 at method GET, status 404. -/
theorem c6_witness :
    send_request "GET" (.response 200 (some .null)) = .ok (some .null) ∧
    send_request "GET" (.response 404 none) = .ok none ∧
    send_request "GET" .transportError = .ok none :=
  c6_send_request_result "GET" (Or.inl rfl) .null 404 (by decide) none

/-- C8: the ProviderB (openai, completion-style) rewrite call is a POST
carrying a bearer token from the API key, a prompt that prefixes the
50-word rewrite instruction to the input text, and a token budget of 50;
its result is `choices[0].text` with leading and trailing whitespace
removed. -/
theorem c8_openai_request_and_result (api_key text s : String) (restChoices : List Json) :
    (openaiRequest api_key text).method = "POST" ∧
    ("Authorization", "Bearer " ++ api_key) ∈ (openaiRequest api_key text).headers ∧
    (openaiRequest api_key text).body =
      .obj [("prompt", .str ("Rewrite the following text in a maximum of 50 words:\n" ++ text)),
            ("max_tokens", .num 50)] ∧
    rewrite_with_openai api_key text
      (.response 200 (some (.obj [("choices", .arr (.obj [("text", .str s)] :: restChoices))])))
      = .ok (openaiRequest api_key text, some (.str (strTrim s))) := by
  refine ⟨rfl, ?_, rfl, rfl⟩
  simp [openaiRequest]

/-- C9: a record whose openai rewrite call returns
`choices[0].text = "  Acme makes widgets.  "` ends up with
`description-new` equal to `"Acme makes widgets."`: the whitespace is
trimmed before the value is stored by the rewrite loop. -/
theorem c9_trimmed_value_stored :
    rewriteItem "openai" "k" "t" "u" "b" (fun _ => acmeRewriteOutcome) acmeRecord
      = .ok ([.rewriteCall (openaiRequest "k" ("Acme Corp makes widgets." ++ mainPrompt))],
             acmeRecord ++ [("description-new", Json.str "Acme makes widgets.")]) ∧
    (rewriteItem "openai" "k" "t" "u" "b" (fun _ => acmeRewriteOutcome) acmeRecord).map
      (fun p => lookupKey p.2 "description-new")
      = .ok (some (Json.str "Acme makes widgets.")) :=
  ⟨rfl, rfl⟩

/-- C10: when the candidate filter leaves nothing (so no fetch tasks exist
and the only completion order is the empty one), the pipeline aborts with
an uncaught IndexError while deriving the output columns from the first
record, after issuing only the bulk-list call; no output file content (not
even a header row) is produced. -/
theorem c10_empty_candidates_index_error
    (rewrite_api api_key access_token user_id bot_id : String)
    (data : List Rec) (fetch : String → HttpOutcome) (rw : String → HttpOutcome)
    (hfilter : filterCandidates data = .ok []) :
    mainModel rewrite_api api_key access_token user_id bot_id data fetch [] rw
      = ([.bulkList], .error .indexError) := by
  unfold mainModel
  rw [hfilter]
  rfl

/-- Witness for C10 on the empty input list. -/
theorem c10_witness :
    mainModel "openai" "k" "t" "u" "b" [] (fun _ => .transportError) []
      (fun _ => .transportError) = ([.bulkList], .error .indexError) :=
  c10_empty_candidates_index_error "openai" "k" "t" "u" "b" []
    (fun _ => .transportError) (fun _ => .transportError) rfl

/-- C1 (failing input): on a single candidate whose profile fetch fails,
the enrichment leaves the record without a `description` field and the
rewrite loop then aborts the whole run with an uncaught
`KeyError("description")` instead of passing the record through: the
batch does not complete even though only recoverable per-item failures
occurred. -/
theorem c1_unenriched_record_aborts_run :
    mainModel "openai" "k" "t" "u" "b" [itemA] (fun _ => .transportError) ["A"]
      (fun _ => .transportError)
      = ([.bulkList, .profileFetch "A"], .error (.keyError "description")) :=
  rfl

/-- C3 (counterexample): a completed profile fetch whose 200 body is the
empty JSON array does not leave the record unchanged without aborting;
it raises an uncaught IndexError that aborts the enrichment phase. -/
theorem c3_counterexample_empty_success_aborts :
    processCompletion [("A", itemA)] "A" (some (.arr [])) = .error .indexError :=
  rfl

/-- C3 (amended): a failed profile fetch (`None`) leaves the map - and so
the matching record - exactly as it was, without aborting; a non-empty
200 body whose first element carries all six fields writes exactly those
six fields into the matching record. (A 200 body that is an empty array
or lacks one of the six fields instead aborts the run, per the
counterexample.) -/
theorem c3_failure_keeps_record_success_writes_fields
    (m : DataMap) (s : String) (item : Rec) (hlook : lookupKey m s = some item)
    (pd : Json) (upds : List (String × Json)) (hex : extractSix pd = .ok upds) :
    processCompletion m s none = .ok m ∧
    processCompletion m s (some pd) = .ok (setValue m s (dictUpdate item upds)) := by
  refine ⟨rfl, ?_⟩
  simp only [processCompletion]
  rw [hlook, hex]
  rfl

/-- C7: on any input list whose items carry a string `type` and an
`exchangeShortName` field, the candidate filter is exactly `List.filter`
with the type/exchange predicate: it keeps precisely the items whose type
is stock or etf case-insensitively and whose exchangeShortName is AMEX or
NASDAQ, it modifies no item, and it preserves the relative order of the
input (the result is a sublist of the input). -/
theorem c7_filter_exact_and_order_preserving (data : List Rec)
    (h : ∀ item ∈ data, (∃ t, lookupKey item "type" = some (.str t)) ∧
          (lookupKey item "exchangeShortName").isSome) :
    filterCandidates data = .ok (data.filter candPred) ∧
    (data.filter candPred).Sublist data ∧
    (∀ item, item ∈ data.filter candPred ↔ item ∈ data ∧ candPred item = true) := by
  refine ⟨?_, List.filter_sublist data, fun item => List.mem_filter⟩
  induction data with
  | nil => rfl
  | cons hd tl ih =>
    obtain ⟨⟨t, ht⟩, he⟩ := h hd (List.mem_cons_self hd tl)
    obtain ⟨e, he2⟩ := Option.isSome_iff_exists.mp he
    have htl := ih (fun item hm => h item (List.mem_cons_of_mem hd hm))
    by_cases hc : strToLower t = "stock" ∨ strToLower t = "etf"
    · simp [filterCandidates, recGet, ht, Json.asStr, he2, hc, htl, candPred,
        List.filter_cons, bind, Except.bind, pure, Except.pure]
    · simp [filterCandidates, recGet, ht, Json.asStr, he2, hc, htl, candPred,
        List.filter_cons, bind, Except.bind, pure, Except.pure]

/-- Witness for C7 on a two-item list where only the first passes. -/
theorem c7_witness :
    filterCandidates [itemA, [("symbol", Json.str "B"), ("type", Json.str "bond"),
        ("exchangeShortName", Json.str "NYSE")]]
      = .ok ([itemA, [("symbol", Json.str "B"), ("type", Json.str "bond"),
          ("exchangeShortName", Json.str "NYSE")]].filter candPred) ∧
    ([itemA, [("symbol", Json.str "B"), ("type", Json.str "bond"),
        ("exchangeShortName", Json.str "NYSE")]].filter candPred).Sublist
      [itemA, [("symbol", Json.str "B"), ("type", Json.str "bond"),
        ("exchangeShortName", Json.str "NYSE")]] ∧
    (∀ item, item ∈ [itemA, [("symbol", Json.str "B"), ("type", Json.str "bond"),
        ("exchangeShortName", Json.str "NYSE")]].filter candPred ↔
      item ∈ [itemA, [("symbol", Json.str "B"), ("type", Json.str "bond"),
        ("exchangeShortName", Json.str "NYSE")]] ∧ candPred item = true) := by
  refine c7_filter_exact_and_order_preserving _ ?_
  intro item hm
  simp only [List.mem_cons, List.not_mem_nil, or_false] at hm
  rcases hm with rfl | rfl
  · exact ⟨⟨"stock", rfl⟩, rfl⟩
  · exact ⟨⟨"bond", rfl⟩, rfl⟩

/-- With an unrecognised backend value, the per-record rewrite step always
raises: either at the description access, or - once a description string
is in hand - at the backend dispatch, which raises `ValueError` before
any rewrite HTTP call is built. -/
theorem rewriteItem_invalid_backend (rewrite_api api_key access_token user_id bot_id : String)
    (rw : String → HttpOutcome) (item : Rec)
    (h : ¬(strToLower rewrite_api = "openai" ∨ strToLower rewrite_api = "coze")) :
    ∃ e, rewriteItem rewrite_api api_key access_token user_id bot_id rw item = .error e := by
  push_neg at h
  cases hd : recGet item "description" with
  | error e => exact ⟨e, by simp [rewriteItem, hd, bind, Except.bind]⟩
  | ok dJ =>
    cases hs : dJ.asStr with
    | error e => exact ⟨e, by simp [rewriteItem, hd, hs, bind, Except.bind]⟩
    | ok s =>
      exact ⟨.valueError "Invalid rewrite_api value. It should be either openai or coze.",
        by simp [rewriteItem, hd, hs, h.1, h.2, bind, Except.bind]⟩

/-- With an unrecognised backend value, the rewrite loop over a non-empty
batch aborts on its first record and issues no rewrite call at all. -/
theorem rewriteLoop_invalid_backend (rewrite_api api_key access_token user_id bot_id : String)
    (rw : String → HttpOutcome) (items : List Rec)
    (h : ¬(strToLower rewrite_api = "openai" ∨ strToLower rewrite_api = "coze"))
    (hne : items ≠ []) :
    ∃ e, rewriteLoop rewrite_api api_key access_token user_id bot_id rw items
      = ([], .error e) := by
  cases items with
  | nil => exact absurd rfl hne
  | cons hd tl =>
    obtain ⟨e, he⟩ :=
      rewriteItem_invalid_backend rewrite_api api_key access_token user_id bot_id rw hd h
    exact ⟨e, by simp [rewriteLoop, he]⟩

/-- C2 (counterexample): with backend value "foo" and one candidate whose
profile fetch succeeds, the run does abort with the fatal InvalidBackend
`ValueError`, but only after the bulk-list HTTP call and the profile HTTP
call have already been issued: the trace of issued calls at the moment of
the abort is not empty, contradicting "aborts before any HTTP call
(bulk list, profile, or rewrite) is issued". -/
theorem c2_counterexample_calls_before_abort :
    mainModel "foo" "k" "t" "u" "b" [itemA] (fun _ => .response 200 (some profileA)) ["A"]
      (fun _ => .transportError)
      = ([.bulkList, .profileFetch "A"],
         .error (.valueError "Invalid rewrite_api value. It should be either openai or coze.")) ∧
    (mainModel "foo" "k" "t" "u" "b" [itemA] (fun _ => .response 200 (some profileA)) ["A"]
      (fun _ => .transportError)).1 ≠ [] :=
  ⟨rfl, fun hcon => List.noConfusion
    (show CallEvent.bulkList :: [CallEvent.profileFetch "A"] = ([] : List CallEvent) from hcon)⟩

/-- C2 (amended): if the configured backend is outside {openai, coze}, the
run never completes and no rewrite HTTP call is ever issued; the fatal
InvalidBackend `ValueError` is raised at the rewrite dispatch of the
first record, i.e. after the bulk-list and profile calls rather than
before any HTTP call. -/
theorem c2_invalid_backend_aborts_no_rewrite_call
    (rewrite_api api_key access_token user_id bot_id : String)
    (data : List Rec) (fetch : String → HttpOutcome) (order : List String)
    (rw : String → HttpOutcome)
    (h : ¬(strToLower rewrite_api = "openai" ∨ strToLower rewrite_api = "coze")) :
    (mainModel rewrite_api api_key access_token user_id bot_id data fetch order rw).2.isOk
      = false ∧
    ∀ req, CallEvent.rewriteCall req ∉
      (mainModel rewrite_api api_key access_token user_id bot_id data fetch order rw).1 := by
  unfold mainModel
  cases hf : filterCandidates data with
  | error e => simp [hf, Except.isOk, Except.toBool, bind, Except.bind]
  | ok fd =>
    cases hb : buildMap fd with
    | error e => simp [hf, hb, Except.isOk, Except.toBool, bind, Except.bind]
    | ok dm =>
      cases hl : enrichLoop fetch dm order with
      | error e =>
        simp [hf, hb, hl, Except.isOk, Except.toBool, bind, Except.bind,
          List.mem_append, List.mem_map]
      | ok dm2 =>
        cases hu : dm2.map Prod.snd with
        | nil =>
          simp [hf, hb, hl, hu, rewriteLoop, writeCsv, Except.isOk, Except.toBool,
            bind, Except.bind, List.mem_append, List.mem_map]
        | cons hd tl =>
          obtain ⟨e, he⟩ := rewriteLoop_invalid_backend rewrite_api api_key access_token
            user_id bot_id rw (hd :: tl) h (by simp)
          simp [hf, hb, hl, hu, he, Except.isOk, Except.toBool, bind, Except.bind,
            List.mem_append, List.mem_map]

/-- Witness for C2 with backend "foo" on a concrete one-candidate run. -/
theorem c2_witness :
    (mainModel "foo" "k" "t" "u" "b" [itemA] (fun _ => .response 200 (some profileA)) ["A"]
      (fun _ => .transportError)).2.isOk = false ∧
    ∀ req, CallEvent.rewriteCall req ∉
      (mainModel "foo" "k" "t" "u" "b" [itemA] (fun _ => .response 200 (some profileA)) ["A"]
        (fun _ => .transportError)).1 :=
  c2_invalid_backend_aborts_no_rewrite_call "foo" "k" "t" "u" "b" [itemA]
    (fun _ => .response 200 (some profileA)) ["A"] (fun _ => .transportError) (by decide)

/-- Witness for C3 on a one-record map and a full profile body. -/
theorem c3_witness :
    processCompletion [("A", itemA)] "A" none = .ok [("A", itemA)] ∧
    processCompletion [("A", itemA)] "A" (some profileA)
      = .ok (setValue [("A", itemA)] "A" (dictUpdate itemA profileAUpds)) :=
  c3_failure_keeps_record_success_writes_fields [("A", itemA)] "A" itemA rfl
    profileA profileAUpds rfl

/-! ## Association-list and extraction lemmas -/

theorem lookupKey_isSome_iff {α : Type} (m : List (String × α)) (k : String) :
    (lookupKey m k).isSome ↔ k ∈ m.map Prod.fst := by
  induction m with
  | nil => simp [lookupKey]
  | cons p rest ih =>
    by_cases hp : p.1 = k
    · simp [lookupKey, hp]
    · simp [lookupKey, hp, ih, Ne.symm hp]

theorem lookupKey_mem {α : Type} {m : List (String × α)} {k : String} {v : α}
    (h : lookupKey m k = some v) : (k, v) ∈ m := by
  induction m with
  | nil => simp [lookupKey] at h
  | cons p rest ih =>
    by_cases hp : p.1 = k
    · simp [lookupKey, hp] at h
      subst h
      simp [← hp]
    · simp [lookupKey, hp] at h
      exact List.mem_cons_of_mem _ (ih h)

theorem lookupKey_eq_of_mem_nodup {α : Type} {m : List (String × α)}
    (hnd : (m.map Prod.fst).Nodup) {p : String × α} (hp : p ∈ m) :
    lookupKey m p.1 = some p.2 := by
  induction m with
  | nil => simp at hp
  | cons q rest ih =>
    simp only [List.map_cons, List.nodup_cons] at hnd
    rcases List.mem_cons.mp hp with rfl | hp2
    · simp [lookupKey]
    · have hne : q.1 ≠ p.1 := by
        intro hcon
        exact hnd.1 (hcon ▸ List.mem_map_of_mem Prod.fst hp2)
      simp [lookupKey, hne]
      exact ih hnd.2 hp2

theorem mapKeys_setValue (m : DataMap) (k : String) (r : Rec) :
    mapKeys (setValue m k r) = mapKeys m := by
  unfold mapKeys setValue
  rw [List.map_map]
  refine List.map_congr_left ?_
  intro p _
  by_cases hp : p.1 = k <;> simp [hp]

theorem lookupKey_map_set_ne {α : Type} (m : List (String × α)) (k : String) (v : α)
    (k' : String) (hne : k' ≠ k) :
    lookupKey (m.map (fun p => if p.1 = k then (k, v) else p)) k' = lookupKey m k' := by
  induction m with
  | nil => rfl
  | cons p rest ih =>
    by_cases hp : p.1 = k
    · simp [lookupKey, hp, Ne.symm hne, hne, ih]
    · simp only [List.map_cons, if_neg hp, lookupKey]
      by_cases hp2 : p.1 = k' <;> simp [hp2, ih]

theorem lookupKey_append_single_ne {α : Type} (m : List (String × α)) (k : String) (v : α)
    (k' : String) (hne : k' ≠ k) :
    lookupKey (m ++ [(k, v)]) k' = lookupKey m k' := by
  induction m with
  | nil => simp [lookupKey, Ne.symm hne]
  | cons p rest ih =>
    simp only [List.cons_append, lookupKey]
    by_cases hp2 : p.1 = k' <;> simp [hp2, ih]

theorem lookupKey_setField_ne (r : Rec) (k : String) (v : Json) (k' : String) (hne : k' ≠ k) :
    lookupKey (setField r k v) k' = lookupKey r k' := by
  unfold setField
  by_cases hs : (lookupKey r k).isSome
  · simp only [hs, if_true]
    exact lookupKey_map_set_ne r k v k' hne
  · simp only [hs, if_false]
    exact lookupKey_append_single_ne r k v k' hne

theorem lookupKey_dictUpdate_not_mem (upds : List (String × Json)) (r : Rec) (k' : String)
    (h : k' ∉ upds.map Prod.fst) :
    lookupKey (dictUpdate r upds) k' = lookupKey r k' := by
  induction upds generalizing r with
  | nil => rfl
  | cons u rest ih =>
    simp only [List.map_cons, List.mem_cons] at h
    push_neg at h
    simp only [dictUpdate, List.foldl_cons]
    rw [show List.foldl (fun acc p => setField acc p.1 p.2) (setField r u.1 u.2) rest
          = dictUpdate (setField r u.1 u.2) rest from rfl]
    rw [ih (setField r u.1 u.2) h.2, lookupKey_setField_ne r u.1 u.2 k' h.1]

theorem recGet_ok_iff {r : Rec} {k : String} {v : Json} :
    recGet r k = .ok v ↔ lookupKey r k = some v := by
  unfold recGet
  cases lookupKey r k <;> simp

theorem asStr_ok {j : Json} {s : String} (h : j.asStr = .ok s) : j = .str s := by
  cases j <;> simp_all [Json.asStr]

theorem exceptBind_ok {α β : Type} {x : Except PyErr α} {f : α → Except PyErr β} {b : β}
    (h : (x >>= f) = .ok b) : ∃ a, x = .ok a ∧ f a = .ok b := by
  cases x with
  | error e => simp [bind, Except.bind] at h
  | ok a => exact ⟨a, rfl, by simpa [bind, Except.bind] using h⟩

theorem extractSix_keys {pd : Json} {upds : List (String × Json)}
    (h : extractSix pd = .ok upds) :
    upds.map Prod.fst = ["currency", "industry", "sector", "country", "image", "description"] := by
  unfold extractSix at h
  obtain ⟨a1, e1, h⟩ := exceptBind_ok h
  obtain ⟨v1, f1, h⟩ := exceptBind_ok h
  obtain ⟨a2, e2, h⟩ := exceptBind_ok h
  obtain ⟨v2, f2, h⟩ := exceptBind_ok h
  obtain ⟨a3, e3, h⟩ := exceptBind_ok h
  obtain ⟨v3, f3, h⟩ := exceptBind_ok h
  obtain ⟨a4, e4, h⟩ := exceptBind_ok h
  obtain ⟨v4, f4, h⟩ := exceptBind_ok h
  obtain ⟨a5, e5, h⟩ := exceptBind_ok h
  obtain ⟨v5, f5, h⟩ := exceptBind_ok h
  obtain ⟨a6, e6, h⟩ := exceptBind_ok h
  obtain ⟨v6, f6, h⟩ := exceptBind_ok h
  simp only [pure, Except.pure, Except.ok.injEq] at h
  subst h
  rfl

/-! ## Invariants of the symbol map -/

theorem mapInsert_nodup {m : DataMap} {k : String} {r : Rec}
    (h : (mapKeys m).Nodup) : (mapKeys (mapInsert m k r)).Nodup := by
  unfold mapInsert
  by_cases hs : (lookupKey m k).isSome
  · simpa [hs, mapKeys_setValue] using h
  · have hk : k ∉ mapKeys m := by
      intro hmem
      apply hs
      rw [lookupKey_isSome_iff]
      simpa [mapKeys] using hmem
    simp only [hs, if_false]
    unfold mapKeys at *
    simp [List.nodup_append, h, hk]

theorem mapInsert_symInv {m : DataMap} {k : String} {r : Rec}
    (h : SymInv m) (hr : lookupKey r "symbol" = some (Json.str k)) :
    SymInv (mapInsert m k r) := by
  unfold mapInsert
  by_cases hs : (lookupKey m k).isSome
  · simp only [hs, if_true]
    intro p hp
    obtain ⟨q, hq, hqe⟩ := List.mem_map.mp hp
    by_cases hqk : q.1 = k
    · rw [if_pos hqk] at hqe
      subst hqe
      exact hr
    · rw [if_neg hqk] at hqe
      subst hqe
      exact h q hq
  · simp only [hs, if_false]
    intro p hp
    rcases List.mem_append.mp hp with hp2 | hp2
    · exact h p hp2
    · simp at hp2
      subst hp2
      exact hr

theorem buildMap_invariants {items : List Rec} {dm : DataMap}
    (h : buildMap items = .ok dm) : (mapKeys dm).Nodup ∧ SymInv dm := by
  unfold buildMap at h
  suffices hgen : ∀ (acc : DataMap), (mapKeys acc).Nodup → SymInv acc →
      items.foldlM (fun m item => do
        let sJ ← recGet item "symbol"
        let s ← sJ.asStr
        pure (mapInsert m s item)) acc = .ok dm →
      (mapKeys dm).Nodup ∧ SymInv dm by
    exact hgen [] (by simp [mapKeys]) (by intro p hp; simp at hp) h
  clear h
  induction items with
  | nil =>
    intro acc h1 h2 h3
    simp only [List.foldlM_nil, pure, Except.pure, Except.ok.injEq] at h3
    subst h3
    exact ⟨h1, h2⟩
  | cons item rest ih =>
    intro acc h1 h2 h3
    rw [List.foldlM_cons] at h3
    obtain ⟨acc2, hacc2, h3⟩ := exceptBind_ok h3
    obtain ⟨sJ, hsJ, hacc2⟩ := exceptBind_ok hacc2
    obtain ⟨s, hstr, hacc2⟩ := exceptBind_ok hacc2
    simp only [pure, Except.pure, Except.ok.injEq] at hacc2
    subst hacc2
    have hsym : lookupKey item "symbol" = some (Json.str s) := by
      have h4 := recGet_ok_iff.mp hsJ
      rw [asStr_ok hstr] at h4
      exact h4
    exact ih (mapInsert acc s item) (mapInsert_nodup h1) (mapInsert_symInv h2 hsym) h3

/-! ## Behaviour of the enrichment loop -/

theorem get_profile_data_eq (fetch : String → HttpOutcome) (s : String) :
    get_profile_data fetch s = .ok (fetchJson fetch s, s) := by
  unfold get_profile_data send_request fetchJson
  cases fetch s <;> rfl

theorem processCompletion_ok_of {m : DataMap} {s : String} {pd : Option Json}
    (hs : s ∈ mapKeys m) (hpd : profileOk pd) :
    ∃ m2, processCompletion m s pd = .ok m2 ∧ mapKeys m2 = mapKeys m ∧
      (SymInv m → SymInv m2) := by
  cases pd with
  | none => exact ⟨m, rfl, rfl, id⟩
  | some j =>
    have hls : (lookupKey m s).isSome := by
      rw [lookupKey_isSome_iff]
      simpa [mapKeys] using hs
    obtain ⟨item, hitem⟩ := Option.isSome_iff_exists.mp hls
    obtain ⟨upds, hex⟩ := hpd j rfl
    refine ⟨setValue m s (dictUpdate item upds), ?_, mapKeys_setValue m s _, ?_⟩
    · simp only [processCompletion]
      rw [hitem, hex]
      rfl
    · intro hsym
      have hsymtgt : lookupKey (dictUpdate item upds) "symbol" = some (Json.str s) := by
        rw [lookupKey_dictUpdate_not_mem upds item "symbol"
          (by rw [extractSix_keys hex]; decide)]
        exact hsym (s, item) (lookupKey_mem hitem)
      intro p hp
      obtain ⟨q, hq, hqe⟩ := List.mem_map.mp hp
      by_cases hqk : q.1 = s
      · rw [if_pos hqk] at hqe
        subst hqe
        exact hsymtgt
      · rw [if_neg hqk] at hqe
        subst hqe
        exact hsym q hq

theorem enrichLoop_total (fetch : String → HttpOutcome) (order : List String) :
    ∀ (m : DataMap), (∀ s ∈ order, s ∈ mapKeys m) →
    (∀ s, profileOk (fetchJson fetch s)) →
    ∃ m2, enrichLoop fetch m order = .ok m2 ∧ mapKeys m2 = mapKeys m ∧
      (SymInv m → SymInv m2) := by
  induction order with
  | nil => exact fun m _ _ => ⟨m, rfl, rfl, id⟩
  | cons s rest ih =>
    intro m horder hwf
    obtain ⟨m1, hm1, hkeys1, hsym1⟩ :=
      processCompletion_ok_of (horder s (List.mem_cons_self s rest)) (hwf s)
    obtain ⟨m2, hm2, hkeys2, hsym2⟩ := ih m1
      (fun t ht => hkeys1 ▸ horder t (List.mem_cons_of_mem s ht)) hwf
    refine ⟨m2, ?_, hkeys2.trans hkeys1, fun h => hsym2 (hsym1 h)⟩
    unfold enrichLoop
    rw [get_profile_data_eq]
    simp only [bind, Except.bind]
    rw [hm1]
    exact hm2

theorem mapKeys_map_fst_preserving (m : DataMap) (f : String × Rec → String × Rec)
    (hf : ∀ p ∈ m, (f p).1 = p.1) : mapKeys (m.map f) = mapKeys m := by
  unfold mapKeys
  rw [List.map_map]
  exact List.map_congr_left hf

/-- The enrichment loop, when it completes, is pointwise merging: the final
map is the initial map with, at every key that occurs in the completion
order, the six profile fields of that symbol's fetch result merged in. -/
theorem enrichLoop_ok_eq (fetch : String → HttpOutcome) (order : List String) :
    ∀ (m m2 : DataMap), (mapKeys m).Nodup → order.Nodup →
    enrichLoop fetch m order = .ok m2 →
    m2 = m.map (fun p =>
      if p.1 ∈ order then (p.1, applyMergeT p.2 (fetchJson fetch p.1)) else p) := by
  induction order with
  | nil =>
    intro m m2 _ _ h
    simp only [enrichLoop, Except.ok.injEq] at h
    subst h
    simp
  | cons s rest ih =>
    intro m m2 hnd hord h
    simp only [List.nodup_cons] at hord
    unfold enrichLoop at h
    rw [get_profile_data_eq] at h
    simp only [bind, Except.bind] at h
    cases hpc : processCompletion m s (fetchJson fetch s) with
    | error e => rw [hpc] at h; cases h
    | ok m1 =>
      rw [hpc] at h
      have hm1 : m1 = m.map (fun p =>
          if p.1 = s then (p.1, applyMergeT p.2 (fetchJson fetch p.1)) else p) := by
        cases ho : fetchJson fetch s with
        | none =>
          rw [ho] at hpc
          simp only [processCompletion, Except.ok.injEq] at hpc
          subst hpc
          refine ((List.map_congr_left ?_).trans (List.map_id m)).symm
          intro p _
          by_cases hp : p.1 = s
          · subst hp
            simp [ho, applyMergeT]
          · simp [hp]
        | some j =>
          rw [ho] at hpc
          simp only [processCompletion] at hpc
          cases hl : lookupKey m s with
          | none => rw [hl] at hpc; cases hpc
          | some item =>
            rw [hl] at hpc
            cases hex : extractSix j with
            | error e => rw [hex] at hpc; cases hpc
            | ok upds =>
              rw [hex] at hpc
              simp only [bind, Except.bind, pure, Except.pure, Except.ok.injEq] at hpc
              subst hpc
              unfold setValue
              refine List.map_congr_left ?_
              intro p hp
              by_cases hps : p.1 = s
              · have hpitem : p.2 = item := by
                  have h5 := lookupKey_eq_of_mem_nodup hnd hp
                  rw [hps, hl] at h5
                  injection h5 with h6
                  exact h6.symm
                subst hps
                simp [hpitem, applyMergeT, ho, hex]
              · simp [hps]
      subst hm1
      have hkeys1 : mapKeys (m.map (fun p =>
          if p.1 = s then (p.1, applyMergeT p.2 (fetchJson fetch p.1)) else p)) = mapKeys m := by
        refine mapKeys_map_fst_preserving m _ ?_
        intro p _
        by_cases hp : p.1 = s <;> simp [hp]
      have h2 := ih _ m2 (by rw [hkeys1]; exact hnd) hord.2 h
      rw [h2, List.map_map]
      refine List.map_congr_left ?_
      intro p hp
      by_cases hps : p.1 = s
      · simp [Function.comp_apply, hps, hord.1, List.mem_cons]
      · simp only [Function.comp_apply, if_neg hps]
        by_cases hpr : p.1 ∈ rest
        · simp [hpr, List.mem_cons, hps]
        · simp [hpr, List.mem_cons, hps]

/-- C4: the Profile Enricher never drops a record. For every input whose
symbol map builds, every completion order drawn from the map's keys and
every per-symbol assignment of fetch results (each one a failure or a
well-formed success), the enrichment completes and its output collection
still contains, for every symbol S of the input map, a record whose
`symbol` field is S. -/
theorem c4_enricher_never_drops_symbol (filtered_data : List Rec)
    (fetch : String → HttpOutcome) (order : List String) (dm : DataMap)
    (hb : buildMap filtered_data = .ok dm)
    (horder : ∀ s ∈ order, s ∈ mapKeys dm)
    (hwf : ∀ s, profileOk (fetchJson fetch s)) :
    ∃ out, update_with_profile filtered_data fetch order = .ok out ∧
      ∀ s ∈ mapKeys dm, ∃ r ∈ out, lookupKey r "symbol" = some (Json.str s) := by
  obtain ⟨hnd, hsyminv⟩ := buildMap_invariants hb
  obtain ⟨m2, hl, hkeys, hsym⟩ := enrichLoop_total fetch order dm horder hwf
  refine ⟨m2.map Prod.snd, ?_, ?_⟩
  · unfold update_with_profile
    rw [hb]
    simp only [bind, Except.bind]
    rw [hl]
    rfl
  · intro s hs
    rw [← hkeys] at hs
    obtain ⟨p, hp, hpe⟩ := List.mem_map.mp hs
    subst hpe
    exact ⟨p.2, List.mem_map_of_mem Prod.snd hp, hsym hsyminv p hp⟩

/-- Witness for C4: one candidate record, a successful fetch. -/
theorem c4_witness :
    ∃ out, update_with_profile [itemA] (fun _ => .response 200 (some profileA)) ["A"]
        = .ok out ∧
      ∀ s ∈ mapKeys [("A", itemA)], ∃ r ∈ out, lookupKey r "symbol" = some (Json.str s) :=
  c4_enricher_never_drops_symbol [itemA] (fun _ => .response 200 (some profileA)) ["A"]
    [("A", itemA)] rfl (fun s hs => hs)
    (fun s j hj => ⟨profileAUpds, by injection hj with h4; rw [← h4]; rfl⟩)

/-- C5: order independence of the concurrent enrichment. For a fixed
per-symbol assignment of fetch results, any two completion orders of the
fetch tasks (both permutations of the task list, i.e. of the map's keys)
that run to completion produce exactly the same output collection. -/
theorem c5_completion_order_irrelevant (filtered_data : List Rec)
    (fetch : String → HttpOutcome) (o1 o2 : List String) (dm : DataMap)
    (out1 out2 : List Rec)
    (hb : buildMap filtered_data = .ok dm)
    (h1 : o1.Perm (mapKeys dm)) (h2 : o2.Perm (mapKeys dm))
    (e1 : update_with_profile filtered_data fetch o1 = .ok out1)
    (e2 : update_with_profile filtered_data fetch o2 = .ok out2) :
    out1 = out2 := by
  have hnd : (mapKeys dm).Nodup := (buildMap_invariants hb).1
  have extract : ∀ (o : List String) (out : List Rec),
      update_with_profile filtered_data fetch o = .ok out →
      ∃ dm2, enrichLoop fetch dm o = .ok dm2 ∧ out = dm2.map Prod.snd := by
    intro o out e
    unfold update_with_profile at e
    rw [hb] at e
    simp only [bind, Except.bind] at e
    cases hl : enrichLoop fetch dm o with
    | error er => rw [hl] at e; cases e
    | ok dm2 =>
      rw [hl] at e
      simp only [pure, Except.pure, Except.ok.injEq] at e
      exact ⟨dm2, rfl, e.symm⟩
  obtain ⟨dm1, hl1, ho1⟩ := extract o1 out1 e1
  obtain ⟨dm2, hl2, ho2⟩ := extract o2 out2 e2
  have hnf1 := enrichLoop_ok_eq fetch o1 dm dm1 hnd ((h1.nodup_iff).mpr hnd) hl1
  have hnf2 := enrichLoop_ok_eq fetch o2 dm dm2 hnd ((h2.nodup_iff).mpr hnd) hl2
  rw [ho1, ho2, hnf1, hnf2, List.map_map, List.map_map]
  refine List.map_congr_left ?_
  intro p hp
  have hmem : p.1 ∈ o1 ↔ p.1 ∈ o2 := by rw [h1.mem_iff, h2.mem_iff]
  by_cases hin : p.1 ∈ o1
  · simp [Function.comp_apply, hin, hmem.mp hin]
  · have hin2 : p.1 ∉ o2 := fun hcon => hin (hmem.mpr hcon)
    simp [Function.comp_apply, hin, hin2]

/-- Witness for C5: two candidates, the orders A-then-B and B-then-A, the
fetch for A succeeding and the fetch for B failing. -/
theorem c5_witness :
    ([itemA ++ profileAUpds, itemB] : List Rec) = [itemA ++ profileAUpds, itemB] :=
  c5_completion_order_irrelevant [itemA, itemB] fetchAB ["A", "B"] ["B", "A"]
    [("A", itemA), ("B", itemB)] [itemA ++ profileAUpds, itemB] [itemA ++ profileAUpds, itemB]
    rfl (by decide) (by decide) rfl rfl
